import Mathlib

/-!
Verification of the env-types-validator library.

The embedding mirrors `src/index.ts`:
  parseTypeString, validateValue, createEnvValidator, validateEnv.
JavaScript runtime primitives used by that file (the Number conversion,
String.prototype.toLowerCase, JSON.parse, truthiness of string values)
are modelled explicitly below.  Machine doubles are modelled by exact
rationals: every conversion the library performs on the inputs appearing
here is exact, and NaN and the infinities are explicit constructors.
-/

namespace EnvTypesValidator

/-- Result of the JavaScript Number conversion: NaN, a signed infinity,
or a finite value (modelled exactly as a rational). -/
inductive JSNumber where
  | nan
  | inf (pos : Bool)
  | finite (q : ℚ)
deriving DecidableEq

/-- Characters stripped by the JS Number conversion before parsing:
ASCII whitespace, NBSP and the BOM. -/
def isStrWhiteSpace (c : Char) : Bool :=
  c == ' ' || c == '\t' || c == '\n' || c == '\r' ||
  c == Char.ofNat 11 || c == Char.ofNat 12 || c == Char.ofNat 160 || c == Char.ofNat 65279

/-- Strip leading and trailing whitespace, as the JS Number conversion does. -/
def jsTrim (cs : List Char) : List Char :=
  ((cs.dropWhile isStrWhiteSpace).reverse.dropWhile isStrWhiteSpace).reverse

def isDecDigit (c : Char) : Bool := decide ('0' ≤ c ∧ c ≤ '9')

def digitVal (c : Char) : Nat := c.toNat - ('0').toNat

def digitsToNat (ds : List Char) : Nat := ds.foldl (fun acc c => acc * 10 + digitVal c) 0

/-- Split a character list into its maximal leading run of decimal digits
and the remainder. -/
def takeDigits (cs : List Char) : List Char × List Char :=
  (cs.takeWhile isDecDigit, cs.dropWhile isDecDigit)

def hexDigitVal (c : Char) : Option Nat :=
  if '0' ≤ c ∧ c ≤ '9' then some (c.toNat - ('0').toNat)
  else if 'a' ≤ c ∧ c ≤ 'f' then some (c.toNat - ('a').toNat + 10)
  else if 'A' ≤ c ∧ c ≤ 'F' then some (c.toNat - ('A').toNat + 10)
  else none

def octDigitVal (c : Char) : Option Nat :=
  if '0' ≤ c ∧ c ≤ '7' then some (c.toNat - ('0').toNat) else none

def binDigitVal (c : Char) : Option Nat :=
  if c = '0' ∨ c = '1' then some (c.toNat - ('0').toNat) else none

/-- Parse a non-empty all-digit list in the given radix; `none` when the
list is empty or contains a character outside the digit set. -/
def parseRadixDigits (radix : Nat) (dv : Char → Option Nat) (cs : List Char) : Option Nat :=
  match cs with
  | [] => none
  | _ => cs.foldlM (fun acc c => (dv c).map (fun d => acc * radix + d)) 0

/-- Parse the exponent suffix of a decimal literal.  The empty remainder
means no exponent (0); an `e`-form must be complete and consume the rest. -/
def parseExpPart (cs : List Char) : Option Int :=
  match cs with
  | [] => some 0
  | c :: r =>
    if c == 'e' || c == 'E' then
      match r with
      | '+' :: r2 =>
        let p := takeDigits r2
        if p.1.isEmpty || !p.2.isEmpty then none else some ((digitsToNat p.1 : Int))
      | '-' :: r2 =>
        let p := takeDigits r2
        if p.1.isEmpty || !p.2.isEmpty then none else some (-((digitsToNat p.1 : Int)))
      | _ =>
        let p := takeDigits r
        if p.1.isEmpty || !p.2.isEmpty then none else some ((digitsToNat p.1 : Int))
    else none

/-- Exact rational value of the decimal literal intDs . fracDs times ten
to the e, computed with the core rational constructor so that it reduces
by evaluation. -/
def decimalValue (intDs fracDs : List Char) (e : Int) : ℚ :=
  let mantissa : Nat := digitsToNat intDs * 10 ^ fracDs.length + digitsToNat fracDs
  let e2 : Int := e - ((fracDs.length : Nat) : Int)
  if 0 ≤ e2 then mkRat (((mantissa * 10 ^ e2.toNat : Nat) : Int)) 1
  else mkRat ((mantissa : Int)) (10 ^ ((-e2).toNat))

/-- Parse an unsigned decimal literal (digits, optional fraction, optional
exponent), consuming the whole list; `none` when the list is not one. -/
def parseDecimal (cs : List Char) : Option ℚ :=
  let ip := takeDigits cs
  let fp :=
    match ip.2 with
    | '.' :: r => takeDigits r
    | _ => (([] : List Char), ip.2)
  if ip.1.isEmpty && fp.1.isEmpty then none
  else
    match parseExpPart fp.2 with
    | none => none
    | some e => some (decimalValue ip.1 fp.1 e)

/-- Decimal literal or the word Infinity, after an optional sign. -/
def decimalOrInfinity (body : List Char) (pos : Bool) : JSNumber :=
  if body = ("Infinity").data then JSNumber.inf pos
  else
    match parseDecimal body with
    | some q => JSNumber.finite (if pos then q else Rat.neg q)
    | none => JSNumber.nan

def signedDecimal (cs : List Char) : JSNumber :=
  match cs with
  | '+' :: r => decimalOrInfinity r true
  | '-' :: r => decimalOrInfinity r false
  | _ => decimalOrInfinity cs true

/-- The JS Number conversion applied to a string: trim whitespace, the
empty remainder is 0, radix-prefixed integers, otherwise a signed decimal
literal or Infinity; anything else is NaN. -/
def jsStringToNumber (s : String) : JSNumber :=
  match jsTrim s.data with
  | [] => JSNumber.finite 0
  | '0' :: x :: rest =>
    if x == 'x' || x == 'X' then
      match parseRadixDigits 16 hexDigitVal rest with
      | some n => JSNumber.finite (mkRat ((n : Int)) 1)
      | none => JSNumber.nan
    else if x == 'o' || x == 'O' then
      match parseRadixDigits 8 octDigitVal rest with
      | some n => JSNumber.finite (mkRat ((n : Int)) 1)
      | none => JSNumber.nan
    else if x == 'b' || x == 'B' then
      match parseRadixDigits 2 binDigitVal rest with
      | some n => JSNumber.finite (mkRat ((n : Int)) 1)
      | none => JSNumber.nan
    else signedDecimal ('0' :: x :: rest)
  | cs => signedDecimal cs

/-- `isNaN(num)` on the result of a Number conversion. -/
def jsIsNaN : JSNumber → Bool
  | JSNumber.nan => true
  | _ => false

/-- `value.toLowerCase()`.  Lean maps only ASCII letters; this agrees with
the JS mapping on every comparison the library performs, since no
non-ASCII character lower-cases to a single character of the words
compared against. -/
def jsToLowerCase (s : String) : String := String.mk (s.data.map Char.toLower)

/-- A JSON document as produced by `JSON.parse`.  Numbers are kept as
exact rationals. -/
inductive JSONValue where
  | jnull
  | jbool (b : Bool)
  | jnum (q : ℚ)
  | jstr (s : String)
  | jarr (elems : List JSONValue)
  | jobj (members : List (String × JSONValue))

/-- JSON insignificant whitespace. -/
def jsonWs (c : Char) : Bool := c == ' ' || c == '\t' || c == '\n' || c == '\r'

/-- Parse the rest of a JSON string literal (the opening quote already
consumed), handling the escape forms.  Lone surrogate escapes are mapped
through `Char.ofNat`; the library never inspects the decoded text, only
whether the parse succeeds. -/
def parseJStringRest : List Char → List Char → Option (String × List Char)
  | _, [] => none
  | acc, '"' :: r => some (String.mk acc.reverse, r)
  | acc, '\\' :: esc =>
    match esc with
    | '"' :: r => parseJStringRest ('"' :: acc) r
    | '\\' :: r => parseJStringRest ('\\' :: acc) r
    | '/' :: r => parseJStringRest ('/' :: acc) r
    | 'b' :: r => parseJStringRest (Char.ofNat 8 :: acc) r
    | 'f' :: r => parseJStringRest (Char.ofNat 12 :: acc) r
    | 'n' :: r => parseJStringRest ('\n' :: acc) r
    | 'r' :: r => parseJStringRest ('\r' :: acc) r
    | 't' :: r => parseJStringRest ('\t' :: acc) r
    | 'u' :: h1 :: h2 :: h3 :: h4 :: r =>
      match hexDigitVal h1, hexDigitVal h2, hexDigitVal h3, hexDigitVal h4 with
      | some a, some b, some c, some d =>
        parseJStringRest (Char.ofNat (((a * 16 + b) * 16 + c) * 16 + d) :: acc) r
      | _, _, _, _ => none
    | _ => none
  | acc, c :: r => if c.toNat < 32 then none else parseJStringRest (c :: acc) r

/-- Signed JSON number value. -/
def jnumVal (neg : Bool) (intDs fracDs : List Char) (e : Int) : ℚ :=
  if neg then Rat.neg (decimalValue intDs fracDs e) else decimalValue intDs fracDs e

/-- Parse a JSON number literal at the head of the list (strict JSON
grammar: optional minus, no leading zeros, fraction and exponent parts
each requiring at least one digit). -/
def parseJNumber (cs : List Char) : Option (ℚ × List Char) :=
  let sp :=
    match cs with
    | '-' :: r => (true, r)
    | _ => (false, cs)
  let ip := takeDigits sp.2
  if ip.1.isEmpty then none
  else if ip.1.length > 1 && ip.1.headD '0' == '0' then none
  else
    let dotted := match ip.2 with | '.' :: _ => true | _ => false
    let fp :=
      match ip.2 with
      | '.' :: r => takeDigits r
      | _ => (([] : List Char), ip.2)
    if dotted && fp.1.isEmpty then none
    else
      match fp.2 with
      | c :: r =>
        if c == 'e' || c == 'E' then
          let esp :=
            match r with
            | '+' :: rr => ((1 : Int), rr)
            | '-' :: rr => ((-1 : Int), rr)
            | _ => ((1 : Int), r)
          let ep := takeDigits esp.2
          if ep.1.isEmpty then none
          else some (jnumVal sp.1 ip.1 fp.1 (esp.1 * ((digitsToNat ep.1 : Int))), ep.2)
        else some (jnumVal sp.1 ip.1 fp.1 0, fp.2)
      | [] => some (jnumVal sp.1 ip.1 fp.1 0, [])

mutual

/-- Fueled recursive-descent parser for one JSON value. -/
def parseJValue : Nat → List Char → Option (JSONValue × List Char)
  | 0, _ => none
  | Nat.succ fuel, cs =>
    match cs.dropWhile jsonWs with
    | 'n' :: 'u' :: 'l' :: 'l' :: r => some (JSONValue.jnull, r)
    | 't' :: 'r' :: 'u' :: 'e' :: r => some (JSONValue.jbool true, r)
    | 'f' :: 'a' :: 'l' :: 's' :: 'e' :: r => some (JSONValue.jbool false, r)
    | '"' :: r => (parseJStringRest [] r).map (fun p => (JSONValue.jstr p.1, p.2))
    | '[' :: r =>
      match r.dropWhile jsonWs with
      | ']' :: r2 => some (JSONValue.jarr [], r2)
      | r2 => (parseJElems fuel r2).map (fun p => (JSONValue.jarr p.1, p.2))
    | '{' :: r =>
      match r.dropWhile jsonWs with
      | '}' :: r2 => some (JSONValue.jobj [], r2)
      | r2 => (parseJMembers fuel r2).map (fun p => (JSONValue.jobj p.1, p.2))
    | rest => (parseJNumber rest).map (fun p => (JSONValue.jnum p.1, p.2))

/-- Comma-separated array elements up to the closing bracket. -/
def parseJElems : Nat → List Char → Option (List JSONValue × List Char)
  | 0, _ => none
  | Nat.succ fuel, cs =>
    match parseJValue fuel cs with
    | none => none
    | some (v, r) =>
      match r.dropWhile jsonWs with
      | ',' :: r2 => (parseJElems fuel r2).map (fun p => (v :: p.1, p.2))
      | ']' :: r2 => some (v :: [], r2)
      | _ => none

/-- Comma-separated object members up to the closing brace. -/
def parseJMembers : Nat → List Char → Option (List (String × JSONValue) × List Char)
  | 0, _ => none
  | Nat.succ fuel, cs =>
    match cs.dropWhile jsonWs with
    | '"' :: r =>
      match parseJStringRest [] r with
      | none => none
      | some (key, r2) =>
        match r2.dropWhile jsonWs with
        | ':' :: r3 =>
          match parseJValue fuel r3 with
          | none => none
          | some (v, r4) =>
            match r4.dropWhile jsonWs with
            | ',' :: r5 => (parseJMembers fuel r5).map (fun p => ((key, v) :: p.1, p.2))
            | '}' :: r5 => some ((key, v) :: [], r5)
            | _ => none
        | _ => none
    | _ => none

end

/-- `JSON.parse(value)` as used by the library: `some` a document when the
whole string is a JSON text, `none` when parsing raises.  The fuel bound
exceeds the number of parser steps possible on the input. -/
def jsonParse (s : String) : Option JSONValue :=
  match parseJValue (2 * s.length + 4) s.data with
  | some (v, rest) => if (rest.dropWhile jsonWs).isEmpty then some v else none
  | none => none

/-- A value as stored in the validated-values mapping. -/
inductive EnvValue where
  | vStr (s : String)
  | vNum (n : JSNumber)
  | vBool (b : Bool)
  | vJson (j : JSONValue)

/-- Result record of `validateValue`: `valid`, the `parsed` value
(absent on failure) and the optional `reason`. -/
structure VVResult where
  valid : Bool
  parsed : Option EnvValue
  reason : Option String

/-- Result of `parseTypeString`: base type tag and optionality flag. -/
structure ParsedType where
  type : String
  optional : Bool
deriving DecidableEq

/-- `parseTypeString` from src/index.ts: `typeStr.endsWith(char 63)` is the
last character being the question mark, and `slice(0, -1)` drops it. -/
def parseTypeString (typeStr : String) : ParsedType :=
  let isOptional := typeStr.data.getLast? == some '?'
  let baseType := if isOptional then String.mk typeStr.data.dropLast else typeStr
  ⟨baseType, isOptional⟩

/-- `validateValue` from src/index.ts.  The argument is a string or
undefined, modelled as `Option String`; the switch on the expected type is
an if-chain over the same string comparisons. -/
def validateValue (value : Option String) (expectedType : String) : VVResult :=
  if value = none ∨ value = some ("") then
    ⟨false, none, some ("Value is empty or undefined")⟩
  else
    let v := value.getD ("")
    if expectedType = ("string") then
      ⟨true, some (EnvValue.vStr v), none⟩
    else if expectedType = ("number") then
      let num := jsStringToNumber v
      if jsIsNaN num then
        ⟨false, none, some (("\"") ++ v ++ ("\" is not a valid number"))⟩
      else
        ⟨true, some (EnvValue.vNum num), none⟩
    else if expectedType = ("boolean") then
      if jsToLowerCase v = ("true") ∨ v = ("1") then
        ⟨true, some (EnvValue.vBool true), none⟩
      else if jsToLowerCase v = ("false") ∨ v = ("0") then
        ⟨true, some (EnvValue.vBool false), none⟩
      else
        ⟨false, none,
          some (("\"") ++ v ++
            ("\" is not a valid boolean (use \x27true\x27, \x27false\x27, \x271\x27, or \x270\x27)"))⟩
    else if expectedType = ("json") then
      match jsonParse v with
      | some parsed => ⟨true, some (EnvValue.vJson parsed), none⟩
      | none => ⟨false, none, some (("\"") ++ v ++ ("\" is not valid JSON"))⟩
    else
      ⟨false, none, some (("Unknown type: ") ++ expectedType)⟩

/-- JS truthiness test `!value` on a string-or-undefined: true exactly for
undefined and the empty string. -/
def falsyStr : Option String → Bool
  | none => true
  | some s => s == ""

/-- Error record pushed by the validation loops. -/
structure ValidationError where
  key : String
  expected : String
  received : Option String
  reason : String
deriving DecidableEq

/-- The per-key loop of `validateEnv`, in schema order.  A schema is the
entry list of the schema object (keys therefore distinct in any actual
call); the environment is a key-to-optional-string mapping.  Returns the
error list and the values mapping (an entry `(k, none)` is
`values[k] = undefined`). -/
def validateEnvLoop (env : String → Option String) :
    List (String × String) → List ValidationError × List (String × Option EnvValue)
  | [] => ([], [])
  | (key, typeStr) :: rest =>
    let pt := parseTypeString typeStr
    let value := env key
    let next := validateEnvLoop env rest
    if falsyStr value && !pt.optional then
      (⟨key, typeStr, value, ("Required: \"") ++ key ++ ("\" is missing")⟩ :: next.1, next.2)
    else if falsyStr value && pt.optional then
      (next.1, (key, (none : Option EnvValue)) :: next.2)
    else
      let validation := validateValue value pt.type
      if validation.valid then
        (next.1, (key, validation.parsed) :: next.2)
      else
        (⟨key, typeStr, value, validation.reason.getD ("Validation failed")⟩ :: next.1, next.2)

/-- The per-key loop of `createEnvValidator`; identical to the
`validateEnv` loop except for the wording of the required-but-missing
reason. -/
def createEnvLoop (env : String → Option String) :
    List (String × String) → List ValidationError × List (String × Option EnvValue)
  | [] => ([], [])
  | (key, typeStr) :: rest =>
    let pt := parseTypeString typeStr
    let value := env key
    let next := createEnvLoop env rest
    if falsyStr value && !pt.optional then
      (⟨key, typeStr, value,
        ("Required environment variable \"") ++ key ++ ("\" is missing")⟩ :: next.1, next.2)
    else if falsyStr value && pt.optional then
      (next.1, (key, (none : Option EnvValue)) :: next.2)
    else
      let validation := validateValue value pt.type
      if validation.valid then
        (next.1, (key, validation.parsed) :: next.2)
      else
        (⟨key, typeStr, value, validation.reason.getD ("Validation failed")⟩ :: next.1, next.2)

/-- Aggregate result of `validateEnv`. -/
structure ValidationResult where
  valid : Bool
  errors : List ValidationError
  values : List (String × Option EnvValue)

/-- `validateEnv` from src/index.ts: runs the loop and packages the
aggregate result; `valid` is `errors.length === 0`. -/
def validateEnv (schema : List (String × String)) (env : String → Option String) :
    ValidationResult :=
  let loop := validateEnvLoop env schema
  ⟨loop.1.length == 0, loop.1, loop.2⟩

/-- Options bundle of `createEnvValidator`.  `throwOnError` is optional
with default true (JS destructuring default); the environment is the
supplied mapping (defaulting to process.env at the call site); the
callback is modelled by whether one was supplied, its invocations being
recorded in the outcome. -/
structure ValidatorOptions where
  throwOnError : Option Bool
  env : String → Option String
  onErrorPresent : Bool

/-- Observable outcome of a `createEnvValidator` call: the argument lists
of the `onError` invocations in order, the thrown message if any, and the
returned values mapping if the call returns. -/
structure CreateOutcome where
  onErrorCalls : List (List ValidationError)
  thrown : Option String
  returned : Option (List (String × Option EnvValue))

/-- `createEnvValidator` from src/index.ts: runs its loop; on any error it
first invokes `onError` (when supplied) with the full error list, then
throws the composite message when `throwOnError` holds, otherwise returns
the partial values mapping. -/
def createEnvValidator (schema : List (String × String)) (opts : ValidatorOptions) :
    CreateOutcome :=
  let throwOnError := opts.throwOnError.getD true
  let loop := createEnvLoop opts.env schema
  let errors := loop.1
  let values := loop.2
  if errors.length > 0 then
    let errorMessage :=
      String.intercalate ("\n") (errors.map (fun e => ("  • ") ++ e.key ++ (": ") ++ e.reason))
    let fullMessage := ("Environment validation failed:\n") ++ errorMessage
    let calls := if opts.onErrorPresent then errors :: [] else []
    if throwOnError then ⟨calls, some fullMessage, none⟩
    else ⟨calls, none, some values⟩
  else ⟨[], none, some values⟩

/-- `defineEnv` from src/index.ts: an alias of `createEnvValidator`. -/
def defineEnv (schema : List (String × String)) (opts : ValidatorOptions) : CreateOutcome :=
  createEnvValidator schema opts

/-- `sub` occurs contiguously inside `s`. -/
def strContains (s sub : String) : Prop :=
  ∃ pre post : List Char, s.data = pre ++ sub.data ++ post

/-- Agreement of two error records up to the wording of the
required-but-missing reason: key, expected and received coincide, and the
reasons coincide whenever the received value is present and non-empty
(the only errors on such values are coercion failures, whose reasons both
loops take verbatim from `validateValue`). -/
def errAgree (e1 e2 : ValidationError) : Prop :=
  e1.key = e2.key ∧ e1.expected = e2.expected ∧ e1.received = e2.received ∧
    (falsyStr e1.received = false → e1.reason = e2.reason)

/-- Sample schema with one required and one optional string entry. -/
def sampleSchema : List (String × String) := ("A", ("string")) :: ("B", ("string?")) :: []

/-- Sample schema with one required number entry. -/
def numSchema : List (String × String) := ("P", ("number")) :: []

/-- Sample schema with one required string entry. -/
def strSchema : List (String × String) := ("S", ("string")) :: []

/-- Environment with no variables set. -/
def emptyEnv : String → Option String := fun _ => none

/-- Environment mapping every key to a non-numeric string. -/
def badEnv : String → Option String := fun _ => some ("abc")

/-- Environment mapping every key to a well-formed string. -/
def helloEnv : String → Option String := fun _ => some ("hello")

/-- Environment mapping every key to a single space. -/
def spaceEnv : String → Option String := fun _ => some (" ")

/-- Options with throwOnError explicitly false and no callback. -/
def noThrowOpts : ValidatorOptions := ⟨some false, badEnv, false⟩

/-- Options with default throwOnError and a callback supplied. -/
def callbackOpts : ValidatorOptions := ⟨none, emptyEnv, true⟩

/-- A non-empty present string is not falsy. -/
theorem falsyStr_some_of_ne (s : String) (h : s ≠ ("")) : falsyStr (some s) = false := by
  simp [falsyStr, h]

/-- One step of the validateEnv loop either pushes an error carrying the
head key or an entry for the head key onto the values mapping, leaving
the rest of the loop output unchanged. -/
theorem vLoop_cons_shape (env : String → Option String) (k0 t0 : String)
    (rest : List (String × String)) :
    (∃ e : ValidationError, e.key = k0 ∧
        validateEnvLoop env ((k0, t0) :: rest) =
          (e :: (validateEnvLoop env rest).1, (validateEnvLoop env rest).2)) ∨
    (∃ w : Option EnvValue,
        validateEnvLoop env ((k0, t0) :: rest) =
          ((validateEnvLoop env rest).1, (k0, w) :: (validateEnvLoop env rest).2)) := by
  simp only [validateEnvLoop]
  by_cases h1 : (falsyStr (env k0) && !(parseTypeString t0).optional) = true
  · rw [if_pos h1]
    exact Or.inl ⟨_, rfl, rfl⟩
  · rw [if_neg h1]
    by_cases h2 : (falsyStr (env k0) && (parseTypeString t0).optional) = true
    · rw [if_pos h2]
      exact Or.inr ⟨none, rfl⟩
    · rw [if_neg h2]
      by_cases h3 : (validateValue (env k0) (parseTypeString t0).type).valid = true
      · rw [if_pos h3]
        exact Or.inr ⟨_, rfl⟩
      · rw [if_neg h3]
        exact Or.inl ⟨_, rfl, rfl⟩

/-- Same step shape for the createEnvValidator loop. -/
theorem cLoop_cons_shape (env : String → Option String) (k0 t0 : String)
    (rest : List (String × String)) :
    (∃ e : ValidationError, e.key = k0 ∧
        createEnvLoop env ((k0, t0) :: rest) =
          (e :: (createEnvLoop env rest).1, (createEnvLoop env rest).2)) ∨
    (∃ w : Option EnvValue,
        createEnvLoop env ((k0, t0) :: rest) =
          ((createEnvLoop env rest).1, (k0, w) :: (createEnvLoop env rest).2)) := by
  simp only [createEnvLoop]
  by_cases h1 : (falsyStr (env k0) && !(parseTypeString t0).optional) = true
  · rw [if_pos h1]
    exact Or.inl ⟨_, rfl, rfl⟩
  · rw [if_neg h1]
    by_cases h2 : (falsyStr (env k0) && (parseTypeString t0).optional) = true
    · rw [if_pos h2]
      exact Or.inr ⟨none, rfl⟩
    · rw [if_neg h2]
      by_cases h3 : (validateValue (env k0) (parseTypeString t0).type).valid = true
      · rw [if_pos h3]
        exact Or.inr ⟨_, rfl⟩
      · rw [if_neg h3]
        exact Or.inl ⟨_, rfl, rfl⟩

/-- The two per-key loops compute the same values mapping, and error
lists that agree entry by entry up to the missing-reason wording. -/
theorem loop_agree (env : String → Option String) (schema : List (String × String)) :
    (createEnvLoop env schema).2 = (validateEnvLoop env schema).2 ∧
    List.Forall₂ errAgree (createEnvLoop env schema).1 (validateEnvLoop env schema).1 := by
  induction schema with
  | nil => exact ⟨rfl, List.Forall₂.nil⟩
  | cons p rest ih =>
    obtain ⟨k0, t0⟩ := p
    obtain ⟨ih2, ih1⟩ := ih
    simp only [createEnvLoop, validateEnvLoop]
    by_cases h1 : (falsyStr (env k0) && !(parseTypeString t0).optional) = true
    · rw [if_pos h1, if_pos h1]
      have hf : falsyStr (env k0) = true := by
        simp only [Bool.and_eq_true] at h1
        exact h1.1
      refine ⟨ih2, List.Forall₂.cons ⟨rfl, rfl, rfl, ?_⟩ ih1⟩
      intro hc
      rw [hf] at hc
      cases hc
    · rw [if_neg h1, if_neg h1]
      by_cases h2 : (falsyStr (env k0) && (parseTypeString t0).optional) = true
      · rw [if_pos h2, if_pos h2]
        exact ⟨by rw [ih2], ih1⟩
      · rw [if_neg h2, if_neg h2]
        by_cases h3 : (validateValue (env k0) (parseTypeString t0).type).valid = true
        · rw [if_pos h3, if_pos h3]
          exact ⟨by rw [ih2], ih1⟩
        · rw [if_neg h3, if_neg h3]
          exact ⟨ih2, List.Forall₂.cons ⟨rfl, rfl, rfl, fun _ => rfl⟩ ih1⟩

/-- Error lists that agree up to reason wording have the same per-key
counts. -/
theorem forall₂_errAgree_countP (k : String) (l1 l2 : List ValidationError)
    (h : List.Forall₂ errAgree l1 l2) :
    l1.countP (fun e => e.key == k) = l2.countP (fun e => e.key == k) := by
  induction h with
  | nil => rfl
  | cons hab _ ih =>
    rw [List.countP_cons, List.countP_cons, ih, hab.1]

/-- Each schema entry contributes to exactly one of the error list and
the values mapping: per-key counts partition the schema key count. -/
theorem vLoop_countP (env : String → Option String) (k : String)
    (schema : List (String × String)) :
    (validateEnvLoop env schema).1.countP (fun e => e.key == k) +
      (validateEnvLoop env schema).2.countP (fun p => p.1 == k) =
      schema.countP (fun p => p.1 == k) := by
  induction schema with
  | nil => rfl
  | cons p rest ih =>
    obtain ⟨k0, t0⟩ := p
    rcases vLoop_cons_shape env k0 t0 rest with ⟨e, hek, heq⟩ | ⟨w, heq⟩ <;> rw [heq] <;>
      simp only [List.countP_cons] <;>
      [rw [hek]; skip] <;>
      by_cases hk : (k0 == k) = true <;> simp only [hk, if_pos, if_neg, if_true, if_false] <;>
      omega

/-- The same partition for the createEnvValidator loop. -/
theorem cLoop_countP (env : String → Option String) (k : String)
    (schema : List (String × String)) :
    (createEnvLoop env schema).1.countP (fun e => e.key == k) +
      (createEnvLoop env schema).2.countP (fun p => p.1 == k) =
      schema.countP (fun p => p.1 == k) := by
  obtain ⟨h2, h1⟩ := loop_agree env schema
  rw [forall₂_errAgree_countP k _ _ h1, h2]
  exact vLoop_countP env k schema

/-- A key of a schema with distinct keys occurs in it exactly once. -/
theorem schema_countP_key (schema : List (String × String)) (k t : String)
    (hnd : (schema.map Prod.fst).Nodup) (hmem : (k, t) ∈ schema) :
    schema.countP (fun p => p.1 == k) = 1 := by
  have h1 : (schema.map Prod.fst).count k = 1 :=
    List.count_eq_one_of_mem hnd (List.mem_map.mpr ⟨(k, t), hmem, rfl⟩)
  rw [List.count, List.countP_map] at h1
  exact h1

theorem countP_fst_eq_zero_iff {α : Type} (l : List (String × α)) (k : String) :
    l.countP (fun p => p.1 == k) = 0 ↔ k ∉ l.map Prod.fst := by
  rw [List.countP_eq_zero]
  constructor
  · intro h hk
    obtain ⟨p, hp, hpk⟩ := List.mem_map.mp hk
    exact h p hp (by simp [hpk])
  · intro h p hp hpk
    exact h (List.mem_map.mpr ⟨p, hp, by simpa using hpk⟩)

theorem countP_key_eq_zero_iff (l : List ValidationError) (k : String) :
    l.countP (fun e => e.key == k) = 0 ↔ k ∉ l.map ValidationError.key := by
  rw [List.countP_eq_zero]
  constructor
  · intro h hk
    obtain ⟨e, he, hek⟩ := List.mem_map.mp hk
    exact h e he (by simp [hek])
  · intro h e he hek
    exact h (List.mem_map.mpr ⟨e, he, by simpa using hek⟩)

/-- Per-entry outcome of the validateEnv loop, as memberships: a
required-and-missing entry contributes its error record, an
optional-and-missing entry the undefined value, a present value its
coercion outcome. -/
theorem vLoop_mem (env : String → Option String) (k t : String)
    (schema : List (String × String)) (hmem : (k, t) ∈ schema) :
    (falsyStr (env k) = true → (parseTypeString t).optional = false →
        (⟨k, t, env k, ("Required: \"") ++ k ++ ("\" is missing")⟩ : ValidationError) ∈
          (validateEnvLoop env schema).1) ∧
    (falsyStr (env k) = true → (parseTypeString t).optional = true →
        (k, (none : Option EnvValue)) ∈ (validateEnvLoop env schema).2) ∧
    (falsyStr (env k) = false → (validateValue (env k) (parseTypeString t).type).valid = true →
        (k, (validateValue (env k) (parseTypeString t).type).parsed) ∈
          (validateEnvLoop env schema).2) ∧
    (falsyStr (env k) = false → (validateValue (env k) (parseTypeString t).type).valid = false →
        (⟨k, t, env k,
            (validateValue (env k) (parseTypeString t).type).reason.getD ("Validation failed")⟩ :
          ValidationError) ∈ (validateEnvLoop env schema).1) := by
  induction schema with
  | nil => cases hmem
  | cons p rest ih =>
    obtain ⟨k0, t0⟩ := p
    rcases List.mem_cons.mp hmem with heq | hrest
    · injection heq with hk ht
      subst hk
      subst ht
      refine ⟨fun hf hx => ?_, fun hf hx => ?_, fun hf hx => ?_, fun hf hx => ?_⟩ <;>
        simp [validateEnvLoop, hf, hx]
    · have ih4 := ih hrest
      rcases vLoop_cons_shape env k0 t0 rest with ⟨e, _, heq⟩ | ⟨w, heq⟩ <;> rw [heq]
      · exact ⟨fun hf hx => List.mem_cons_of_mem _ (ih4.1 hf hx),
          fun hf hx => ih4.2.1 hf hx,
          fun hf hx => ih4.2.2.1 hf hx,
          fun hf hx => List.mem_cons_of_mem _ (ih4.2.2.2 hf hx)⟩
      · exact ⟨fun hf hx => ih4.1 hf hx,
          fun hf hx => List.mem_cons_of_mem _ (ih4.2.1 hf hx),
          fun hf hx => List.mem_cons_of_mem _ (ih4.2.2.1 hf hx),
          fun hf hx => ih4.2.2.2 hf hx⟩

/-- Per-entry outcome of the createEnvValidator loop, as memberships. -/
theorem cLoop_mem (env : String → Option String) (k t : String)
    (schema : List (String × String)) (hmem : (k, t) ∈ schema) :
    (falsyStr (env k) = true → (parseTypeString t).optional = false →
        (⟨k, t, env k,
            ("Required environment variable \"") ++ k ++ ("\" is missing")⟩ : ValidationError) ∈
          (createEnvLoop env schema).1) ∧
    (falsyStr (env k) = true → (parseTypeString t).optional = true →
        (k, (none : Option EnvValue)) ∈ (createEnvLoop env schema).2) ∧
    (falsyStr (env k) = false → (validateValue (env k) (parseTypeString t).type).valid = true →
        (k, (validateValue (env k) (parseTypeString t).type).parsed) ∈
          (createEnvLoop env schema).2) ∧
    (falsyStr (env k) = false → (validateValue (env k) (parseTypeString t).type).valid = false →
        (⟨k, t, env k,
            (validateValue (env k) (parseTypeString t).type).reason.getD ("Validation failed")⟩ :
          ValidationError) ∈ (createEnvLoop env schema).1) := by
  induction schema with
  | nil => cases hmem
  | cons p rest ih =>
    obtain ⟨k0, t0⟩ := p
    rcases List.mem_cons.mp hmem with heq | hrest
    · injection heq with hk ht
      subst hk
      subst ht
      refine ⟨fun hf hx => ?_, fun hf hx => ?_, fun hf hx => ?_, fun hf hx => ?_⟩ <;>
        simp [createEnvLoop, hf, hx]
    · have ih4 := ih hrest
      rcases cLoop_cons_shape env k0 t0 rest with ⟨e, _, heq⟩ | ⟨w, heq⟩ <;> rw [heq]
      · exact ⟨fun hf hx => List.mem_cons_of_mem _ (ih4.1 hf hx),
          fun hf hx => ih4.2.1 hf hx,
          fun hf hx => ih4.2.2.1 hf hx,
          fun hf hx => List.mem_cons_of_mem _ (ih4.2.2.2 hf hx)⟩
      · exact ⟨fun hf hx => ih4.1 hf hx,
          fun hf hx => List.mem_cons_of_mem _ (ih4.2.1 hf hx),
          fun hf hx => List.mem_cons_of_mem _ (ih4.2.2.1 hf hx),
          fun hf hx => ih4.2.2.2 hf hx⟩

/-- Per-entry counts for the validateEnv loop on a schema with distinct
keys: an erring entry yields exactly one error record and no value entry
for its key, a succeeding (or optional-and-missing) entry exactly one
value entry and no error record. -/
theorem vLoop_entry_counts (env : String → Option String) (k t : String)
    (schema : List (String × String)) (hnd : (schema.map Prod.fst).Nodup)
    (hmem : (k, t) ∈ schema) :
    ((falsyStr (env k) = true ∧ (parseTypeString t).optional = false) ∨
        (falsyStr (env k) = false ∧
          (validateValue (env k) (parseTypeString t).type).valid = false) →
      (validateEnvLoop env schema).1.countP (fun e => e.key == k) = 1 ∧
        (validateEnvLoop env schema).2.countP (fun p => p.1 == k) = 0) ∧
    ((falsyStr (env k) = true ∧ (parseTypeString t).optional = true) ∨
        (falsyStr (env k) = false ∧
          (validateValue (env k) (parseTypeString t).type).valid = true) →
      (validateEnvLoop env schema).1.countP (fun e => e.key == k) = 0 ∧
        (validateEnvLoop env schema).2.countP (fun p => p.1 == k) = 1) := by
  have hpart := vLoop_countP env k schema
  rw [schema_countP_key schema k t hnd hmem] at hpart
  have hm := vLoop_mem env k t schema hmem
  constructor
  · rintro (⟨hf, hx⟩ | ⟨hf, hx⟩)
    · have hpos : 0 < (validateEnvLoop env schema).1.countP (fun e => e.key == k) :=
        List.countP_pos_iff.mpr ⟨_, hm.1 hf hx, by simp⟩
      omega
    · have hpos : 0 < (validateEnvLoop env schema).1.countP (fun e => e.key == k) :=
        List.countP_pos_iff.mpr ⟨_, hm.2.2.2 hf hx, by simp⟩
      omega
  · rintro (⟨hf, hx⟩ | ⟨hf, hx⟩)
    · have hpos : 0 < (validateEnvLoop env schema).2.countP (fun p => p.1 == k) :=
        List.countP_pos_iff.mpr ⟨_, hm.2.1 hf hx, by simp⟩
      omega
    · have hpos : 0 < (validateEnvLoop env schema).2.countP (fun p => p.1 == k) :=
        List.countP_pos_iff.mpr ⟨_, hm.2.2.1 hf hx, by simp⟩
      omega

/-- Per-entry counts for the createEnvValidator loop. -/
theorem cLoop_entry_counts (env : String → Option String) (k t : String)
    (schema : List (String × String)) (hnd : (schema.map Prod.fst).Nodup)
    (hmem : (k, t) ∈ schema) :
    ((falsyStr (env k) = true ∧ (parseTypeString t).optional = false) ∨
        (falsyStr (env k) = false ∧
          (validateValue (env k) (parseTypeString t).type).valid = false) →
      (createEnvLoop env schema).1.countP (fun e => e.key == k) = 1 ∧
        (createEnvLoop env schema).2.countP (fun p => p.1 == k) = 0) ∧
    ((falsyStr (env k) = true ∧ (parseTypeString t).optional = true) ∨
        (falsyStr (env k) = false ∧
          (validateValue (env k) (parseTypeString t).type).valid = true) →
      (createEnvLoop env schema).1.countP (fun e => e.key == k) = 0 ∧
        (createEnvLoop env schema).2.countP (fun p => p.1 == k) = 1) := by
  obtain ⟨h2, h1⟩ := loop_agree env schema
  have hv := vLoop_entry_counts env k t schema hnd hmem
  rw [forall₂_errAgree_countP k _ _ h1, h2]
  exact hv

/-- Unfolding of `validateValue` on a present, non-empty value. -/
theorem validateValue_some (v : String) (hv : v ≠ ("")) (t : String) :
    validateValue (some v) t =
      (if t = ("string") then ⟨true, some (EnvValue.vStr v), none⟩
       else if t = ("number") then
         if jsIsNaN (jsStringToNumber v) then
           ⟨false, none, some (("\"") ++ v ++ ("\" is not a valid number"))⟩
         else ⟨true, some (EnvValue.vNum (jsStringToNumber v)), none⟩
       else if t = ("boolean") then
         if jsToLowerCase v = ("true") ∨ v = ("1") then ⟨true, some (EnvValue.vBool true), none⟩
         else if jsToLowerCase v = ("false") ∨ v = ("0") then
           ⟨true, some (EnvValue.vBool false), none⟩
         else
           ⟨false, none,
             some (("\"") ++ v ++
               ("\" is not a valid boolean (use \x27true\x27, \x27false\x27, \x271\x27, or \x270\x27)"))⟩
       else if t = ("json") then
         match jsonParse v with
         | some parsed => ⟨true, some (EnvValue.vJson parsed), none⟩
         | none => ⟨false, none, some (("\"") ++ v ++ ("\" is not valid JSON"))⟩
       else ⟨false, none, some (("Unknown type: ") ++ t)⟩) := by
  unfold validateValue
  rw [if_neg (by simp [hv])]
  rfl

/-- Witness-based substring fact: appending on the left preserves
containment. -/
theorem strContains_mono_left (a s sub : String) (h : strContains s sub) :
    strContains (a ++ s) sub := by
  obtain ⟨pre, post, hp⟩ := h
  exact ⟨a.data ++ pre, post, by simp [hp]⟩

/-- Dropping while a predicate holds of every element yields the empty
list. -/
theorem dropWhile_eq_nil_of_all {p : Char → Bool} (l : List Char) (h : l.all p = true) :
    l.dropWhile p = [] := by
  induction l with
  | nil => rfl
  | cons c r ih =>
    simp only [List.all_cons, Bool.and_eq_true] at h
    simp [List.dropWhile_cons, h.1, ih h.2]

/-- The JS Number conversion maps a whitespace-only string to 0. -/
theorem jsStringToNumber_whitespace (w : String) (h : w.data.all isStrWhiteSpace = true) :
    jsStringToNumber w = JSNumber.finite 0 := by
  have ht : jsTrim w.data = [] := by
    unfold jsTrim
    rw [dropWhile_eq_nil_of_all _ h]
    rfl
  unfold jsStringToNumber
  rw [ht]

/-- C9: for every type descriptor string, if it ends with the single
character question mark the parser returns everything before it as the
base tag with is-optional true, otherwise the whole string with
is-optional false; the descriptor consisting of only the question mark
yields an empty base tag, which fails coercion as an unknown type
whenever a non-empty raw value is present. -/
theorem C9_parse_type_string (s v : String) (hv : v ≠ ("")) :
    (s.data.getLast? = some '?' →
        parseTypeString s = ⟨String.mk s.data.dropLast, true⟩) ∧
    (s.data.getLast? ≠ some '?' → parseTypeString s = ⟨s, false⟩) ∧
    parseTypeString ("?") = ⟨"", true⟩ ∧
    validateValue (some v) ((parseTypeString ("?")).type) =
      ⟨false, none, some (("Unknown type: "))⟩ := by
  refine ⟨?_, ?_, by rfl, ?_⟩
  · intro h
    simp [parseTypeString, h]
  · intro h
    have hb : (s.data.getLast? == some '?') = false := by
      simp [h]
    simp [parseTypeString, hb]
  · show validateValue (some v) ("") = _
    rw [validateValue_some v hv ("")]
    rw [if_neg (by decide), if_neg (by decide), if_neg (by decide), if_neg (by decide)]
    rfl

/-- Witness for C9 at the descriptors number with question mark, number,
and the lone question mark. -/
theorem C9_witness :
    parseTypeString ("number?") = ⟨String.mk ("number?" : String).data.dropLast, true⟩ ∧
    parseTypeString ("number") = ⟨("number"), false⟩ ∧
    parseTypeString ("?") = ⟨"", true⟩ ∧
    validateValue (some ("x")) ((parseTypeString ("?")).type) =
      ⟨false, none, some (("Unknown type: "))⟩ :=
  ⟨(C9_parse_type_string ("number?") ("x") (by decide)).1 (by decide),
   (C9_parse_type_string ("number") ("x") (by decide)).2.1 (by decide),
   (C9_parse_type_string ("?") ("x") (by decide)).2.2.1,
   (C9_parse_type_string ("?") ("x") (by decide)).2.2.2⟩

/-- C2: boolean coercion of a present, non-empty raw string: a
case-insensitive true or the string 1 yields true, a case-insensitive
false or the string 0 yields false, every other string fails with a
reason naming the four accepted literal forms; in particular TRUE yields
true and maybe fails. -/
theorem C2_boolean_coercion (v : String) (hv : v ≠ ("")) :
    ((jsToLowerCase v = ("true") ∨ v = ("1")) →
        validateValue (some v) ("boolean") = ⟨true, some (EnvValue.vBool true), none⟩) ∧
    (¬(jsToLowerCase v = ("true") ∨ v = ("1")) →
      (jsToLowerCase v = ("false") ∨ v = ("0")) →
        validateValue (some v) ("boolean") = ⟨true, some (EnvValue.vBool false), none⟩) ∧
    (¬(jsToLowerCase v = ("true") ∨ v = ("1")) →
      ¬(jsToLowerCase v = ("false") ∨ v = ("0")) →
        ((validateValue (some v) ("boolean")).valid = false ∧
          ∃ r, (validateValue (some v) ("boolean")).reason = some r ∧
            strContains r ("true") ∧ strContains r ("false") ∧
            strContains r ("1") ∧ strContains r ("0"))) ∧
    validateValue (some ("TRUE")) ("boolean") = ⟨true, some (EnvValue.vBool true), none⟩ ∧
    (validateValue (some ("maybe")) ("boolean")).valid = false := by
  have hred := validateValue_some v hv ("boolean")
  rw [if_neg (by decide), if_neg (by decide), if_pos (by rfl)] at hred
  refine ⟨?_, ?_, ?_, by rfl, by rfl⟩
  · intro h
    rw [hred, if_pos h]
  · intro h1 h2
    rw [hred, if_neg h1, if_pos h2]
  · intro h1 h2
    rw [hred, if_neg h1, if_neg h2]
    refine ⟨rfl, _, rfl, ?_, ?_, ?_, ?_⟩
    · exact strContains_mono_left (("\"") ++ v)
        ("\" is not a valid boolean (use \x27true\x27, \x27false\x27, \x271\x27, or \x270\x27)")
        ("true") ⟨("\" is not a valid boolean (use \x27").data, ("\x27, \x27false\x27, \x271\x27, or \x270\x27)").data, by decide⟩
    · exact strContains_mono_left (("\"") ++ v)
        ("\" is not a valid boolean (use \x27true\x27, \x27false\x27, \x271\x27, or \x270\x27)")
        ("false") ⟨("\" is not a valid boolean (use \x27true\x27, \x27").data, ("\x27, \x271\x27, or \x270\x27)").data, by decide⟩
    · exact strContains_mono_left (("\"") ++ v)
        ("\" is not a valid boolean (use \x27true\x27, \x27false\x27, \x271\x27, or \x270\x27)")
        ("1") ⟨("\" is not a valid boolean (use \x27true\x27, \x27false\x27, \x27").data, ("\x27, or \x270\x27)").data, by decide⟩
    · exact strContains_mono_left (("\"") ++ v)
        ("\" is not a valid boolean (use \x27true\x27, \x27false\x27, \x271\x27, or \x270\x27)")
        ("0") ⟨("\" is not a valid boolean (use \x27true\x27, \x27false\x27, \x271\x27, or \x27").data, ("\x27)").data, by decide⟩

/-- Witness for C2 at the inputs true and yes. -/
theorem C2_witness :
    validateValue (some ("true")) ("boolean") = ⟨true, some (EnvValue.vBool true), none⟩ ∧
    ((validateValue (some ("yes")) ("boolean")).valid = false ∧
      ∃ r, (validateValue (some ("yes")) ("boolean")).reason = some r ∧
        strContains r ("true") ∧ strContains r ("false") ∧
        strContains r ("1") ∧ strContains r ("0")) :=
  ⟨(C2_boolean_coercion ("true") (by decide)).1 (by exact Or.inl (by decide)),
   (C2_boolean_coercion ("yes") (by decide)).2.2.1 (by decide) (by decide)⟩

/-- C3: number coercion applies the JS Number conversion: 3000 parses to
the numeric value 3000 (and a whitespace-padded scientific literal also
parses), while abc fails with a reason containing abc and the words not a
valid number. -/
theorem C3_number_coercion :
    validateValue (some ("3000")) ("number") =
      ⟨true, some (EnvValue.vNum (JSNumber.finite 3000)), none⟩ ∧
    validateValue (some (" 1.5e2 ")) ("number") =
      ⟨true, some (EnvValue.vNum (JSNumber.finite 150)), none⟩ ∧
    (validateValue (some ("abc")) ("number")).valid = false ∧
    ∃ r, (validateValue (some ("abc")) ("number")).reason = some r ∧
      strContains r ("abc") ∧ strContains r ("not a valid number") := by
  refine ⟨?_, ?_, by rfl, _, rfl, ?_, ?_⟩
  · have h : jsStringToNumber ("3000") = JSNumber.finite 3000 := by decide
    rw [validateValue_some ("3000") (by decide) ("number"),
      if_neg (by decide), if_pos (by rfl), h]
    rfl
  · have h : jsStringToNumber (" 1.5e2 ") = JSNumber.finite 150 := by decide
    rw [validateValue_some (" 1.5e2 ") (by decide) ("number"),
      if_neg (by decide), if_pos (by rfl), h]
    rfl
  · exact ⟨('"' : Char) :: [], ("\" is not a valid number").data, by decide⟩
  · exact ⟨("\"abc\" is ").data, [], by decide⟩

/-- C1: for every schema with distinct keys and environment, a schema
entry whose descriptor is not optional and whose raw value is absent or
empty yields exactly one error for that key and no value entry, in both
validators; an optional entry with absent or empty raw value yields no
error and a value entry binding the key to no value. -/
theorem C1_missing_required_and_optional (schema : List (String × String))
    (env : String → Option String) (k t : String)
    (hnd : (schema.map Prod.fst).Nodup) (hmem : (k, t) ∈ schema)
    (hfal : falsyStr (env k) = true) :
    ((parseTypeString t).optional = false →
        ((validateEnv schema env).errors.countP (fun e => e.key == k) = 1 ∧
          k ∉ (validateEnv schema env).values.map Prod.fst ∧
          (createEnvLoop env schema).1.countP (fun e => e.key == k) = 1 ∧
          k ∉ (createEnvLoop env schema).2.map Prod.fst)) ∧
    ((parseTypeString t).optional = true →
        ((validateEnv schema env).errors.countP (fun e => e.key == k) = 0 ∧
          (k, (none : Option EnvValue)) ∈ (validateEnv schema env).values ∧
          (createEnvLoop env schema).1.countP (fun e => e.key == k) = 0 ∧
          (k, (none : Option EnvValue)) ∈ (createEnvLoop env schema).2)) := by
  have hE : (validateEnv schema env).errors = (validateEnvLoop env schema).1 := rfl
  have hV : (validateEnv schema env).values = (validateEnvLoop env schema).2 := rfl
  constructor
  · intro hopt
    have hv := (vLoop_entry_counts env k t schema hnd hmem).1 (Or.inl ⟨hfal, hopt⟩)
    have hc := (cLoop_entry_counts env k t schema hnd hmem).1 (Or.inl ⟨hfal, hopt⟩)
    exact ⟨by rw [hE]; exact hv.1,
      by rw [hV]; exact (countP_fst_eq_zero_iff _ _).mp hv.2,
      hc.1, (countP_fst_eq_zero_iff _ _).mp hc.2⟩
  · intro hopt
    have hv := (vLoop_entry_counts env k t schema hnd hmem).2 (Or.inl ⟨hfal, hopt⟩)
    have hc := (cLoop_entry_counts env k t schema hnd hmem).2 (Or.inl ⟨hfal, hopt⟩)
    exact ⟨by rw [hE]; exact hv.1,
      by rw [hV]; exact (vLoop_mem env k t schema hmem).2.1 hfal hopt,
      hc.1, (cLoop_mem env k t schema hmem).2.1 hfal hopt⟩

/-- Witness for C1 on a schema with a required key A and an optional key
B, against the empty environment. -/
theorem C1_witness :
    ((validateEnv sampleSchema emptyEnv).errors.countP (fun e => e.key == ("A")) = 1 ∧
      ("A" : String) ∉ (validateEnv sampleSchema emptyEnv).values.map Prod.fst ∧
      (createEnvLoop emptyEnv sampleSchema).1.countP (fun e => e.key == ("A")) = 1 ∧
      ("A" : String) ∉ (createEnvLoop emptyEnv sampleSchema).2.map Prod.fst) ∧
    ((validateEnv sampleSchema emptyEnv).errors.countP (fun e => e.key == ("B")) = 0 ∧
      (("B" : String), (none : Option EnvValue)) ∈ (validateEnv sampleSchema emptyEnv).values ∧
      (createEnvLoop emptyEnv sampleSchema).1.countP (fun e => e.key == ("B")) = 0 ∧
      (("B" : String), (none : Option EnvValue)) ∈ (createEnvLoop emptyEnv sampleSchema).2) :=
  ⟨(C1_missing_required_and_optional sampleSchema emptyEnv ("A") ("string")
      (by decide) (by decide) (by decide)).1 (by decide),
   (C1_missing_required_and_optional sampleSchema emptyEnv ("B") ("string?")
      (by decide) (by decide) (by decide)).2 (by decide)⟩

/-- C4: validateEnv is total and returns an aggregate whose success flag
is true exactly when its error list is empty; on a schema with distinct
keys, a schema key owns a value entry exactly when it owns no error. -/
theorem C4_aggregate (schema : List (String × String)) (env : String → Option String) :
    ((validateEnv schema env).valid = true ↔ (validateEnv schema env).errors = []) ∧
    ((schema.map Prod.fst).Nodup → ∀ k t, (k, t) ∈ schema →
        (k ∈ (validateEnv schema env).values.map Prod.fst ↔
          (validateEnv schema env).errors.countP (fun e => e.key == k) = 0)) := by
  have hE : (validateEnv schema env).errors = (validateEnvLoop env schema).1 := rfl
  have hV : (validateEnv schema env).values = (validateEnvLoop env schema).2 := rfl
  constructor
  · show ((validateEnvLoop env schema).1.length == 0) = true ↔ _
    rw [hE]
    simp [List.length_eq_zero]
  · intro hnd k t hmem
    rw [hE, hV]
    have hpart := vLoop_countP env k schema
    rw [schema_countP_key schema k t hnd hmem] at hpart
    constructor
    · intro hk
      obtain ⟨p, hp, hpk⟩ := List.mem_map.mp hk
      have hpos : 0 < (validateEnvLoop env schema).2.countP (fun p => p.1 == k) :=
        List.countP_pos_iff.mpr ⟨p, hp, by simp [hpk]⟩
      omega
    · intro he
      have hpos : 0 < (validateEnvLoop env schema).2.countP (fun p => p.1 == k) := by omega
      obtain ⟨p, hp, hpk⟩ := List.countP_pos_iff.mp hpos
      exact List.mem_map.mpr ⟨p, hp, by simpa using hpk⟩

/-- Witness for C4 on the sample schema and the empty environment. -/
theorem C4_witness :
    ((validateEnv sampleSchema emptyEnv).valid = true ↔
      (validateEnv sampleSchema emptyEnv).errors = []) ∧
    (("A" : String) ∈ (validateEnv sampleSchema emptyEnv).values.map Prod.fst ↔
      (validateEnv sampleSchema emptyEnv).errors.countP (fun e => e.key == ("A")) = 0) :=
  ⟨(C4_aggregate sampleSchema emptyEnv).1,
   (C4_aggregate sampleSchema emptyEnv).2 (by decide) ("A") ("string") (by decide)⟩

/-- C8: on a schema with distinct keys, no key both owns an error record
and a defined value entry, in either validator; an optional key with
absent or empty raw value appears in the value mapping bound to no value
and never among the error keys. -/
theorem C8_disjoint (schema : List (String × String)) (env : String → Option String)
    (k t : String) (hnd : (schema.map Prod.fst).Nodup) (hmem : (k, t) ∈ schema) :
    ¬(k ∈ (validateEnv schema env).errors.map ValidationError.key ∧
        ∃ w, (k, some w) ∈ (validateEnv schema env).values) ∧
    ¬(k ∈ (createEnvLoop env schema).1.map ValidationError.key ∧
        ∃ w, (k, some w) ∈ (createEnvLoop env schema).2) ∧
    ((parseTypeString t).optional = true → falsyStr (env k) = true →
        ((k, (none : Option EnvValue)) ∈ (validateEnv schema env).values ∧
          k ∉ (validateEnv schema env).errors.map ValidationError.key ∧
          (k, (none : Option EnvValue)) ∈ (createEnvLoop env schema).2 ∧
          k ∉ (createEnvLoop env schema).1.map ValidationError.key)) := by
  have hE : (validateEnv schema env).errors = (validateEnvLoop env schema).1 := rfl
  have hV : (validateEnv schema env).values = (validateEnvLoop env schema).2 := rfl
  have hpartV := vLoop_countP env k schema
  rw [schema_countP_key schema k t hnd hmem] at hpartV
  have hpartC := cLoop_countP env k schema
  rw [schema_countP_key schema k t hnd hmem] at hpartC
  refine ⟨?_, ?_, ?_⟩
  · rintro ⟨hke, w, hkv⟩
    rw [hE] at hke
    rw [hV] at hkv
    obtain ⟨e, he, hek⟩ := List.mem_map.mp hke
    have h1 : 0 < (validateEnvLoop env schema).1.countP (fun e => e.key == k) :=
      List.countP_pos_iff.mpr ⟨e, he, by simp [hek]⟩
    have h2 : 0 < (validateEnvLoop env schema).2.countP (fun p => p.1 == k) :=
      List.countP_pos_iff.mpr ⟨(k, some w), hkv, by simp⟩
    omega
  · rintro ⟨hke, w, hkv⟩
    obtain ⟨e, he, hek⟩ := List.mem_map.mp hke
    have h1 : 0 < (createEnvLoop env schema).1.countP (fun e => e.key == k) :=
      List.countP_pos_iff.mpr ⟨e, he, by simp [hek]⟩
    have h2 : 0 < (createEnvLoop env schema).2.countP (fun p => p.1 == k) :=
      List.countP_pos_iff.mpr ⟨(k, some w), hkv, by simp⟩
    omega
  · intro hopt hfal
    have hv := (vLoop_entry_counts env k t schema hnd hmem).2 (Or.inl ⟨hfal, hopt⟩)
    have hc := (cLoop_entry_counts env k t schema hnd hmem).2 (Or.inl ⟨hfal, hopt⟩)
    exact ⟨by rw [hV]; exact (vLoop_mem env k t schema hmem).2.1 hfal hopt,
      by rw [hE]; exact (countP_key_eq_zero_iff _ _).mp hv.1,
      (cLoop_mem env k t schema hmem).2.1 hfal hopt,
      (countP_key_eq_zero_iff _ _).mp hc.1⟩

/-- Witness for C8 at the optional key B of the sample schema. -/
theorem C8_witness :
    ¬(("B" : String) ∈ (validateEnv sampleSchema emptyEnv).errors.map ValidationError.key ∧
        ∃ w, (("B" : String), some w) ∈ (validateEnv sampleSchema emptyEnv).values) ∧
    ((("B" : String), (none : Option EnvValue)) ∈ (validateEnv sampleSchema emptyEnv).values ∧
      ("B" : String) ∉ (validateEnv sampleSchema emptyEnv).errors.map ValidationError.key ∧
      (("B" : String), (none : Option EnvValue)) ∈ (createEnvLoop emptyEnv sampleSchema).2 ∧
      ("B" : String) ∉ (createEnvLoop emptyEnv sampleSchema).1.map ValidationError.key) :=
  ⟨(C8_disjoint sampleSchema emptyEnv ("B") ("string?") (by decide) (by decide)).1,
   (C8_disjoint sampleSchema emptyEnv ("B") ("string?") (by decide) (by decide)).2.2
      (by decide) (by decide)⟩

/-- C10: a number entry whose raw value is a non-empty whitespace-only
string passes the emptiness check (which matches only the exact empty
string), the JS Number conversion maps it to 0, and validation succeeds
binding the key to the number 0 with no error. -/
theorem C10_whitespace_only_number (schema : List (String × String))
    (env : String → Option String) (k w : String)
    (hnd : (schema.map Prod.fst).Nodup) (hmem : (k, ("number" : String)) ∈ schema)
    (henv : env k = some w) (hne : w ≠ ("")) (hws : w.data.all isStrWhiteSpace = true) :
    validateValue (some w) ("number") =
      ⟨true, some (EnvValue.vNum (JSNumber.finite 0)), none⟩ ∧
    (k, some (EnvValue.vNum (JSNumber.finite 0))) ∈ (validateEnv schema env).values ∧
    (validateEnv schema env).errors.countP (fun e => e.key == k) = 0 := by
  have hE : (validateEnv schema env).errors = (validateEnvLoop env schema).1 := rfl
  have hV : (validateEnv schema env).values = (validateEnvLoop env schema).2 := rfl
  have hnum := jsStringToNumber_whitespace w hws
  have hvv : validateValue (some w) ("number") =
      ⟨true, some (EnvValue.vNum (JSNumber.finite 0)), none⟩ := by
    rw [validateValue_some w hne ("number"), if_neg (by decide), if_pos (by rfl), hnum]
    rfl
  have hf : falsyStr (env k) = false := by
    rw [henv]
    exact falsyStr_some_of_ne w hne
  have hty : (parseTypeString ("number")).type = ("number") := rfl
  have hvalid : (validateValue (env k) (parseTypeString ("number")).type).valid = true := by
    rw [henv, hty, hvv]
  refine ⟨hvv, ?_, ?_⟩
  · have hm := (vLoop_mem env k ("number") schema hmem).2.2.1 hf hvalid
    rw [henv, hty, hvv] at hm
    rw [hV]
    exact hm
  · have hc := (vLoop_entry_counts env k ("number") schema hnd hmem).2 (Or.inr ⟨hf, hvalid⟩)
    rw [hE]
    exact hc.1

/-- Witness for C10 at a single-space value for the number key P. -/
theorem C10_witness :
    validateValue (some (" ")) ("number") =
      ⟨true, some (EnvValue.vNum (JSNumber.finite 0)), none⟩ ∧
    (("P" : String), some (EnvValue.vNum (JSNumber.finite 0))) ∈
      (validateEnv numSchema spaceEnv).values ∧
    (validateEnv numSchema spaceEnv).errors.countP (fun e => e.key == ("P")) = 0 :=
  C10_whitespace_only_number numSchema spaceEnv ("P") (" ")
    (by decide) (by decide) (by rfl) (by decide) (by decide)

/-- C5: with throwOnError false the throwing layer raises nothing and
returns exactly the values mapping computed by validateEnv, and the two
error lists have equal length and agree entry by entry on key, expected
and received, differing at most in the required-but-missing reason
wording. -/
theorem C5_policy_layers_agree (schema : List (String × String)) (opts : ValidatorOptions)
    (hthrow : opts.throwOnError.getD true = false) :
    (createEnvValidator schema opts).returned = some ((validateEnv schema opts.env).values) ∧
    (createEnvValidator schema opts).thrown = none ∧
    (createEnvLoop opts.env schema).1.length = (validateEnv schema opts.env).errors.length ∧
    List.Forall₂ errAgree (createEnvLoop opts.env schema).1
      (validateEnv schema opts.env).errors := by
  obtain ⟨h2, h1⟩ := loop_agree opts.env schema
  have hE : (validateEnv schema opts.env).errors = (validateEnvLoop opts.env schema).1 := rfl
  have hV : (validateEnv schema opts.env).values = (validateEnvLoop opts.env schema).2 := rfl
  have hout : (createEnvValidator schema opts).returned =
      some ((createEnvLoop opts.env schema).2) ∧
      (createEnvValidator schema opts).thrown = none := by
    simp only [createEnvValidator]
    rw [hthrow]
    by_cases h : (createEnvLoop opts.env schema).1.length > 0
    · rw [if_pos h]
      exact ⟨rfl, rfl⟩
    · rw [if_neg h]
      exact ⟨rfl, rfl⟩
  refine ⟨?_, hout.2, ?_, ?_⟩
  · rw [hout.1, hV, h2]
  · rw [hE]
    exact List.Forall₂.length_eq h1
  · rw [hE]
    exact h1

/-- Witness for C5 on the number schema against a non-numeric
environment, with throwOnError false. -/
theorem C5_witness :
    (createEnvValidator numSchema noThrowOpts).returned =
      some ((validateEnv numSchema noThrowOpts.env).values) ∧
    (createEnvValidator numSchema noThrowOpts).thrown = none ∧
    (createEnvLoop noThrowOpts.env numSchema).1.length =
      (validateEnv numSchema noThrowOpts.env).errors.length ∧
    List.Forall₂ errAgree (createEnvLoop noThrowOpts.env numSchema).1
      (validateEnv numSchema noThrowOpts.env).errors :=
  C5_policy_layers_agree numSchema noThrowOpts (by rfl)

/-- C6: when a callback is supplied, it is invoked exactly once with the
complete ordered error list whenever the loop records at least one error,
regardless of throwOnError (the outcome records the invocation also when
a composite error is then raised), and never invoked when the loop
records no error. -/
theorem C6_onError_invocation (schema : List (String × String)) (opts : ValidatorOptions)
    (hcb : opts.onErrorPresent = true) :
    ((createEnvLoop opts.env schema).1 ≠ [] →
        (createEnvValidator schema opts).onErrorCalls =
          (createEnvLoop opts.env schema).1 :: []) ∧
    ((createEnvLoop opts.env schema).1 = [] →
        (createEnvValidator schema opts).onErrorCalls = []) := by
  constructor
  · intro hne
    have hlen : (createEnvLoop opts.env schema).1.length > 0 := List.length_pos.mpr hne
    simp only [createEnvValidator]
    rw [hcb, if_pos hlen]
    by_cases ht : opts.throwOnError.getD true = true
    · rw [if_pos ht]
      rfl
    · rw [if_neg ht]
      rfl
  · intro he
    have hlen : ¬((createEnvLoop opts.env schema).1.length > 0) := by simp [he]
    simp only [createEnvValidator]
    rw [if_neg hlen]

/-- Witness for C6: with the required key A missing, the callback
receives the full error list exactly once. -/
theorem C6_witness :
    (createEnvValidator sampleSchema callbackOpts).onErrorCalls =
      (createEnvLoop callbackOpts.env sampleSchema).1 :: [] :=
  (C6_onError_invocation sampleSchema callbackOpts (by rfl)).1 (by decide)

/-- C7: a schema of string descriptors against an environment supplying a
present non-empty string for every schema key round-trips: the values
mapping is the environment restricted to the schema keys, the flag is
true and the error list empty. -/
theorem C7_string_roundtrip (schema : List (String × String)) (env : String → Option String)
    (hstr : ∀ p ∈ schema, p.2 = ("string"))
    (henv : ∀ p ∈ schema, ∃ v, env p.1 = some v ∧ v ≠ ("")) :
    (validateEnv schema env).valid = true ∧ (validateEnv schema env).errors = [] ∧
    (validateEnv schema env).values =
      schema.map (fun p => (p.1, (env p.1).map EnvValue.vStr)) := by
  have main : ∀ sc : List (String × String), (∀ p ∈ sc, p.2 = ("string")) →
      (∀ p ∈ sc, ∃ v, env p.1 = some v ∧ v ≠ ("")) →
      validateEnvLoop env sc = ([], sc.map (fun p => (p.1, (env p.1).map EnvValue.vStr))) := by
    intro sc
    induction sc with
    | nil =>
      intro _ _
      rfl
    | cons p rest ih =>
      intro h1 h2
      obtain ⟨k0, t0⟩ := p
      obtain ⟨v, hv, hvne⟩ := h2 (k0, t0) (List.mem_cons_self _ _)
      have ht0 : t0 = ("string") := h1 (k0, t0) (List.mem_cons_self _ _)
      subst ht0
      have hrec := ih (fun q hq => h1 q (List.mem_cons_of_mem _ hq))
        (fun q hq => h2 q (List.mem_cons_of_mem _ hq))
      have hf : falsyStr (env k0) = false := by
        rw [hv]
        exact falsyStr_some_of_ne v hvne
      have hval : validateValue (env k0) (parseTypeString ("string")).type =
          ⟨true, some (EnvValue.vStr v), none⟩ := by
        rw [hv, validateValue_some v hvne ((parseTypeString ("string")).type),
          if_pos (by rfl)]
      rw [hv] at hf hval
      simp [validateEnvLoop, hf, hrec, hval, hv]
  have h := main schema hstr henv
  refine ⟨?_, ?_, ?_⟩
  · show ((validateEnvLoop env schema).1.length == 0) = true
    rw [h]
    rfl
  · show (validateEnvLoop env schema).1 = []
    rw [h]
  · show (validateEnvLoop env schema).2 = _
    rw [h]

/-- Witness for C7 on a one-key string schema with a well-formed value. -/
theorem C7_witness :
    (validateEnv strSchema helloEnv).valid = true ∧
    (validateEnv strSchema helloEnv).errors = [] ∧
    (validateEnv strSchema helloEnv).values =
      strSchema.map (fun p => (p.1, (helloEnv p.1).map EnvValue.vStr)) :=
  C7_string_roundtrip strSchema helloEnv (by decide)
    (fun p _ => ⟨("hello"), rfl, by decide⟩)

end EnvTypesValidator
